import Mathlib

/-!
Verification of the Spectra conversational-agent core against its Python
sources: the memory store (`core/memory.py`), the emotion engine
(`core/emotions.py`) and the AI provider manager (`logic/ai_manager.py`,
`logic/ai_providers.py`).  Numeric values are embedded as rationals,
timestamps as rational day counts, and Python exceptions as `Option`.
-/

namespace Spectra

/-- Clamp a rational to `[0, 1]`, Python `max(0.0, min(1.0, x))`. -/
def clamp01 (x : ℚ) : ℚ := max 0 (min 1 x)

/-- Clamp a rational to `[-1/2, 1/2]`, Python `max(-0.5, min(0.5, x))`. -/
def clampHalf (x : ℚ) : ℚ := max (-(1/2)) (min (1/2) x)

/-- ASCII lowering of a character list, modelling Python `str.lower()`. -/
def lowerL (l : List Char) : List Char := l.map Char.toLower

/-- `leadsWith pat l` holds when `pat` is a leading segment of `l`. -/
def leadsWith : List Char → List Char → Bool
  | [], _ => true
  | _ :: _, [] => false
  | a :: as, b :: bs => a == b && leadsWith as bs

/-- `occursIn pat l` holds when `pat` occurs contiguously in `l`
(Python's `in` on strings). -/
def occursIn (pat : List Char) : List Char → Bool
  | [] => leadsWith pat []
  | c :: cs => leadsWith pat (c :: cs) || occursIn pat cs

/-- Case-insensitive substring test: `pat.lower() in s.lower()`. -/
def containsCI (s pat : String) : Bool := occursIn (lowerL pat.toList) (lowerL s.toList)

/-- Case-sensitive substring test: `pat in s`. -/
def containsCS (s pat : String) : Bool := occursIn pat.toList s.toList

/-- The whitespace characters stripped by Python's `str.strip()`. -/
def isPySpace (c : Char) : Bool :=
  c == ' ' || c == '\t' || c == '\n' || c == '\x0d' || c == '\x0b' || c == '\x0c'

/-- Python `not content.strip()`: every character is whitespace. -/
def isBlank (s : String) : Bool := s.toList.all isPySpace

/-- Python `str.replace(old, new)`: replace every non-overlapping
occurrence, scanning left to right. -/
def replaceL (old new : List Char) : List Char → List Char
  | [] => []
  | c :: cs =>
    if old ≠ [] ∧ leadsWith old (c :: cs) then
      new ++ replaceL old new (cs.drop (old.length - 1))
    else
      c :: replaceL old new cs
  termination_by l => l.length
  decreasing_by
    all_goals simp [List.length_drop]
    omega

section StableSort

variable {α : Type} {κ : Type} [LinearOrder κ]

/-- Insert an element into a descending-by-key sorted list, after every
element of strictly larger key: the placement a stable descending sort
(Python `list.sort(key=…, reverse=True)`) gives to a newly considered
element relative to later input elements. -/
def insortDesc (key : α → κ) (a : α) : List α → List α
  | [] => [a]
  | b :: bs => if key a < key b then b :: insortDesc key a bs else a :: b :: bs

/-- Stable descending sort by `key`, the output contract of Python
`list.sort(key=…, reverse=True)`. -/
def sortDesc (key : α → κ) : List α → List α
  | [] => []
  | a :: as => insortDesc key a (sortDesc key as)

end StableSort

/-! ## Memory store (`core/memory.py`) -/

/-- A `MemoryEntry`.  Timestamps are rational day counts standing for the
ISO datetime strings of the source (whose lexicographic order is their
chronological order). -/
structure MemoryEntry where
  content : String
  memory_type : String
  timestamp : ℚ
  importance : ℚ
  tags : List String
  access_count : ℕ
  last_accessed : ℚ
deriving DecidableEq, Repr

/-- `MemoryEntry.__init__(content, memory_type, importance, tags)` called
at time `now`: importance is clamped to `[0, 1]`, both timestamps are set
to `now`, the access count starts at zero. -/
def mkMemoryEntry (now : ℚ) (content memory_type : String) (importance : ℚ)
    (tags : List String) : MemoryEntry :=
  { content := content
    memory_type := memory_type
    timestamp := now
    importance := max 0 (min 1 importance)
    tags := tags
    access_count := 0
    last_accessed := now }

/-- The dictionary produced by `MemoryEntry.to_dict`; optional fields model
the `dict.get` defaults applied by `from_dict`. -/
structure MemDoc where
  content : String
  memory_type : Option String
  timestamp : Option ℚ
  importance : Option ℚ
  tags : Option (List String)
  access_count : Option ℕ
  last_accessed : Option ℚ
deriving DecidableEq, Repr

/-- `MemoryEntry.to_dict`. -/
def MemoryEntry.to_dict (m : MemoryEntry) : MemDoc :=
  { content := m.content
    memory_type := some m.memory_type
    timestamp := some m.timestamp
    importance := some m.importance
    tags := some m.tags
    access_count := some m.access_count
    last_accessed := some m.last_accessed }

/-- `MemoryEntry.from_dict` evaluated at time `now`: the entry is built
through `__init__` (which clamps importance) and then its timestamp,
access count and last-accessed stamp are overwritten from the dictionary. -/
def MemoryEntry.from_dict (now : ℚ) (d : MemDoc) : MemoryEntry :=
  let entry := mkMemoryEntry now d.content (d.memory_type.getD "conversation")
    (d.importance.getD (1/2)) (d.tags.getD [])
  let ts := d.timestamp.getD now
  { entry with
      timestamp := ts
      access_count := d.access_count.getD 0
      last_accessed := d.last_accessed.getD ts }

/-- The relevance score of `SpectraMemory.recall`:
`importance*0.5 + recency_score*0.3 + min(access_count/10, 0.2)` where
`recency_score = max(0, 1 - days/30)` and `days` is the whole number of
days elapsed since creation (`timedelta.days` floors). -/
def memory_score (now : ℚ) (m : MemoryEntry) : ℚ :=
  let recency : ℤ := ⌊now - m.timestamp⌋
  let recency_score : ℚ := max 0 (1 - (recency : ℚ) / 30)
  m.importance * (1/2) + recency_score * (3/10) + min ((m.access_count : ℚ) / 10) (1/5)

/-- The keyword / type / importance filters of `SpectraMemory.recall`; an
empty string is falsy in Python, so it skips the corresponding filter. -/
def recallFiltered (keyword memory_type : Option String) (min_importance : ℚ)
    (mems : List MemoryEntry) : List MemoryEntry :=
  let f1 := match keyword with
    | some kw => if kw = "" then mems else mems.filter (fun m => containsCI m.content kw)
    | none => mems
  let f2 := match memory_type with
    | some t => if t = "" then f1 else f1.filter (fun m => m.memory_type == t)
    | none => f1
  f2.filter (fun m => decide (min_importance ≤ m.importance))

/-- The ranked list `SpectraMemory.recall` builds: filtered entries,
stably sorted by relevance score, descending. -/
def recallSorted (now : ℚ) (keyword memory_type : Option String) (min_importance : ℚ)
    (mems : List MemoryEntry) : List MemoryEntry :=
  sortDesc (memory_score now) (recallFiltered keyword memory_type min_importance mems)

/-- Increment `access_count` and refresh `last_accessed`, the side effect
of being returned by `recall` or matched by `search_memories`. -/
def bumpAccess (now : ℚ) (m : MemoryEntry) : MemoryEntry :=
  { m with access_count := m.access_count + 1, last_accessed := now }

/-- `SpectraMemory.recall`: returns the recalled contents together with
the store after the access side effect.  `limit or len(...)` in the
source makes `limit=None` and `limit=0` both mean "no limit".  The bump
is applied to store entries equal to a returned entry (the source bumps
the identical objects; entries are compared by value here). -/
def SpectraMemory.recall (now : ℚ) (keyword memory_type : Option String) (limit : Option ℕ)
    (min_importance : ℚ) (mems : List MemoryEntry) :
    List String × List MemoryEntry :=
  let sorted := recallSorted now keyword memory_type min_importance mems
  let limited := match limit with
    | some n => if n = 0 then sorted else sorted.take n
    | none => sorted
  let store := mems.map (fun m => if m ∈ limited then bumpAccess now m else m)
  (limited.map (fun m => m.content), store)

/-- A result dictionary of `SpectraMemory.search_memories`. -/
structure SearchResult where
  content : String
  type : String
  importance : ℚ
  timestamp : ℚ
  tags : List String
deriving DecidableEq, Repr

def toSearchResult (m : MemoryEntry) : SearchResult :=
  { content := m.content
    type := m.memory_type
    importance := m.importance
    timestamp := m.timestamp
    tags := m.tags }

/-- The sort key of `search_memories`: the tuple
`(importance, timestamp)`, compared lexicographically as in Python. -/
def searchKey (r : SearchResult) : Lex (ℚ × ℚ) := toLex (r.importance, r.timestamp)

/-- `SpectraMemory.search_memories`: every matching entry is bumped (also
beyond the limit), and the result dictionaries are sorted by
`(importance, timestamp)` descending, then truncated to `limit`. -/
def search_memories (now : ℚ) (query : String) (limit : ℕ)
    (mems : List MemoryEntry) : List SearchResult × List MemoryEntry :=
  let store := mems.map (fun m => if containsCI m.content query then bumpAccess now m else m)
  let results := (mems.filter (fun m => containsCI m.content query)).map toSearchResult
  ((sortDesc searchKey results).take limit, store)

/-- Keys of a Python dict in insertion order: first occurrences, given the
contents already `seen`. -/
def firstOccAux (seen : List String) : List String → List String
  | [] => []
  | c :: cs => if c ∈ seen then firstOccAux seen cs else c :: firstOccAux (c :: seen) cs

def firstOccKeys (l : List String) : List String := firstOccAux [] l

/-- The value a Python dict comprehension keyed by content assigns to `c`:
the last entry of `l` whose content is `c`. -/
def lastWith (c : String) (l : List MemoryEntry) : Option MemoryEntry :=
  (l.filter (fun m => m.content == c)).getLast?

/-- `list({m.content: m for m in l}.values())`: one entry per content,
keys in first-occurrence order, each valued by the last entry with that
content. -/
def dedupByContent (l : List MemoryEntry) : List MemoryEntry :=
  (firstOccKeys (l.map (fun m => m.content))).filterMap (fun c => lastWith c l)

/-- The important-or-recent union `_cleanup_memories` keeps before any
truncation: entries with importance `≥ 0.8`, plus entries created within
the last 7 days, de-duplicated by content. -/
def keptMemories (now : ℚ) (mems : List MemoryEntry) : List MemoryEntry :=
  let important := mems.filter (fun m => decide ((8:ℚ)/10 ≤ m.importance))
  let recent := mems.filter (fun m => decide (now - 7 ≤ m.timestamp))
  dedupByContent (important ++ recent)

/-- `SpectraMemory._cleanup_memories` with capacity `max_memories`
(`1000` in `__init__`): keep the important-or-recent union; if it still
exceeds capacity, keep the `max_memories` most-accessed of it. -/
def cleanupMemories (now : ℚ) (max_memories : ℕ) (mems : List MemoryEntry) :
    List MemoryEntry :=
  let keep := keptMemories now mems
  if max_memories < keep.length then
    (sortDesc (fun m => m.access_count) keep).take max_memories
  else keep

/-- The capacity set in `SpectraMemory.__init__`. -/
def maxMemoriesDefault : ℕ := 1000

/-- `SpectraMemory.save_memory`: runs cleanup when over capacity (the
file write itself is I/O outside the model). -/
def saveMemory (now : ℚ) (max_memories : ℕ) (mems : List MemoryEntry) :
    List MemoryEntry :=
  if max_memories < mems.length then cleanupMemories now max_memories mems else mems

/-- `SpectraMemory.remember`: blank content is ignored; otherwise a new
entry built by `MemoryEntry.__init__` is appended and `save_memory`
runs. -/
def remember (now : ℚ) (max_memories : ℕ) (content memory_type : String)
    (importance : ℚ) (tags : List String) (mems : List MemoryEntry) :
    List MemoryEntry :=
  if isBlank content then mems
  else saveMemory now max_memories
    (mems ++ [mkMemoryEntry now content memory_type importance tags])

/-! ## Emotion engine (`core/emotions.py`) -/

/-- The ten emotion channels. -/
inductive Emotion
  | joy | sadness | curiosity | empathy | excitement
  | calmness | concern | wonder | affection | determination
deriving DecidableEq, Repr, Fintype

/-- The fixed channel baselines of `decay_emotions` (also the initial
channel values of `EmotionalState.__init__`). -/
def baseline : Emotion → ℚ
  | .joy => 6/10
  | .sadness => 2/10
  | .curiosity => 8/10
  | .empathy => 9/10
  | .excitement => 5/10
  | .calmness => 7/10
  | .concern => 3/10
  | .wonder => 6/10
  | .affection => 8/10
  | .determination => 7/10

/-- `EmotionalState`: the channel vector plus intensity and stability
(the history list and wall-clock stamps are logging bookkeeping, outside
the model). -/
structure EmotionalState where
  emotions : Emotion → ℚ
  intensity : ℚ
  stability : ℚ

/-- The state built by `EmotionalState.__init__`. -/
def initialEmotionalState : EmotionalState :=
  { emotions := baseline, intensity := 6/10, stability := 8/10 }

/-- `EmotionalState.update_emotion`: the requested change is attenuated
by stability (`actual_change = change * (1 - stability*0.5)`) and the
channel is clamped to `[0, 1]`. -/
def EmotionalState.update_emotion (st : EmotionalState) (e : Emotion) (change : ℚ) :
    EmotionalState :=
  let actual_change := change * (1 - st.stability * (1/2))
  { st with emotions := fun x =>
      if x = e then clamp01 (st.emotions e + actual_change) else st.emotions x }

/-- `EmotionalState.decay_emotions`: every channel away from its baseline
moves by `decay_rate * direction * |baseline - current|` toward it,
clamped to `[0, 1]`; channels at baseline are untouched. -/
def EmotionalState.decay_emotions (st : EmotionalState) (decay_rate : ℚ) :
    EmotionalState :=
  { st with emotions := fun e =>
      let current := st.emotions e
      if current ≠ baseline e then
        let direction : ℚ := if baseline e > current then 1 else -1
        clamp01 (current + decay_rate * direction * |baseline e - current|)
      else current }

/-- The fifteen trigger categories of `EmotionEngine._setup_triggers`. -/
inductive TriggerCat
  | gratitude | creativity | achievement | learning | humor | affection
  | sadness | struggle | pain | loss | question | mystery | discovery
  | danger | confusion
deriving DecidableEq, Repr

/-- The fixed per-category emotion deltas of `_setup_triggers`. -/
def triggerDelta : TriggerCat → Emotion → ℚ
  | .gratitude, .joy => 3/10
  | .gratitude, .affection => 2/10
  | .gratitude, .calmness => 1/10
  | .creativity, .excitement => 3/10
  | .creativity, .joy => 2/10
  | .creativity, .curiosity => 1/10
  | .achievement, .joy => 4/10
  | .achievement, .excitement => 2/10
  | .achievement, .determination => 1/10
  | .learning, .curiosity => 3/10
  | .learning, .wonder => 2/10
  | .learning, .excitement => 1/10
  | .humor, .joy => 3/10
  | .humor, .excitement => 1/10
  | .affection, .affection => 3/10
  | .affection, .joy => 2/10
  | .affection, .calmness => 1/10
  | .sadness, .empathy => 4/10
  | .sadness, .concern => 3/10
  | .sadness, .sadness => 2/10
  | .struggle, .empathy => 3/10
  | .struggle, .concern => 3/10
  | .struggle, .determination => 2/10
  | .pain, .empathy => 4/10
  | .pain, .concern => 4/10
  | .pain, .sadness => 1/10
  | .loss, .empathy => 3/10
  | .loss, .sadness => 3/10
  | .loss, .concern => 2/10
  | .question, .curiosity => 3/10
  | .question, .excitement => 1/10
  | .mystery, .curiosity => 4/10
  | .mystery, .wonder => 3/10
  | .discovery, .excitement => 3/10
  | .discovery, .wonder => 2/10
  | .discovery, .joy => 2/10
  | .danger, .concern => 4/10
  | .danger, .empathy => 2/10
  | .confusion, .concern => 2/10
  | .confusion, .empathy => 2/10
  | .confusion, .curiosity => 2/10
  | _, _ => 0

/-- The trigger keyword table of `_analyze_emotional_content`. -/
def triggerWords : TriggerCat → List String
  | .gratitude => ["thank", "grateful", "appreciate", "thankful"]
  | .creativity => ["create", "imagine", "idea", "design", "art", "write"]
  | .achievement => ["success", "accomplish", "achieve", "complete", "win"]
  | .learning => ["learn", "understand", "discover", "know", "teach"]
  | .humor => ["funny", "laugh", "joke", "amusing", "haha", "lol"]
  | .affection => ["love", "care", "like", "fond", "dear", "sweet"]
  | .sadness => ["sad", "cry", "tears", "depressed", "down", "upset"]
  | .struggle => ["difficult", "hard", "struggle", "challenging", "tough"]
  | .pain => ["hurt", "pain", "ache", "suffer", "agony"]
  | .loss => ["lost", "gone", "died", "death", "miss", "mourn"]
  | .question => ["?", "how", "why", "what", "when", "where"]
  | .mystery => ["mystery", "unknown", "strange", "weird", "curious"]
  | .discovery => ["found", "discover", "realize", "revelation"]
  | .danger => ["danger", "threat", "risk", "warning", "unsafe"]
  | .confusion => ["confused", "don\x27t understand", "unclear", "puzzled"]

/-- The dict iteration order of `trigger_words`. -/
def allCategories : List TriggerCat :=
  [.gratitude, .creativity, .achievement, .learning, .humor, .affection,
   .sadness, .struggle, .pain, .loss, .question, .mystery, .discovery,
   .danger, .confusion]

/-- `f"{text} {context}".lower()`, the text scanned for triggers. -/
def combinedText (text context : String) : List Char :=
  lowerL (text.toList ++ [' '] ++ context.toList)

/-- The number of keywords of one category found in the combined text. -/
def triggerHits (cat : TriggerCat) (combined : List Char) : ℕ :=
  ((triggerWords cat).filter (fun w => occursIn w.toList combined)).length

/-- `intensity = min(matches * 0.1, 0.3)`. -/
def triggerIntensity (hits : ℕ) : ℚ := min ((hits : ℚ) * (1/10)) (3/10)

/-- One category's contribution to channel `e`: its deltas scaled by the
intensity, contributed only when the category has at least one hit. -/
def categoryChange (combined : List Char) (cat : TriggerCat) (e : Emotion) : ℚ :=
  if 0 < triggerHits cat combined then
    triggerIntensity (triggerHits cat combined) * triggerDelta cat e
  else 0

/-- The accumulated per-channel delta of `_analyze_emotional_content`
before the `[-0.5, 0.5]` clamp: the trigger-table contributions plus the
`+0.1` affection bonus applied when `"richie"` occurs in the lowercased
input text. -/
def rawChange (text context : String) (e : Emotion) : ℚ :=
  (allCategories.map (fun cat => categoryChange (combinedText text context) cat e)).sum
    + if e = .affection ∧ occursIn "richie".toList (lowerL text.toList) then 1/10 else 0

/-- The final per-channel delta map of `_analyze_emotional_content`.
Channels absent from the Python dict are `0` here; since every table
delta and the bonus are positive, dict membership coincides with a
non-zero delta. -/
def analyzeChange (text context : String) (e : Emotion) : ℚ :=
  clampHalf (rawChange text context e)

/-- `EmotionEngine._auto_decay` given the seconds elapsed since the last
decay pass: after more than 5 minutes, decay at
`min(0.05, elapsed_seconds / 3600)`. -/
def autoDecay (elapsedSec : ℚ) (st : EmotionalState) : EmotionalState :=
  if 300 < elapsedSec then st.decay_emotions (min (1/20) (elapsedSec / 3600)) else st

/-- `EmotionEngine.process_input`: auto-decay, analyze, then one
`update_emotion` per channel present in the change dict.  The per-channel
updates are independent (each touches only its own channel and reads
only stability), so they are applied pointwise. -/
def process_input (elapsedSec : ℚ) (text context : String) (st : EmotionalState) :
    EmotionalState :=
  let st1 := autoDecay elapsedSec st
  { st1 with emotions := fun e =>
      if analyzeChange text context e = 0 then st1.emotions e
      else (st1.update_emotion e (analyzeChange text context e)).emotions e }

/-! ## AI providers and manager (`logic/ai_providers.py`, `logic/ai_manager.py`) -/

/-- The context dict of `generate_response`: `emotions` and `personality`
model `context.get('emotions', '')` and
`context.get('personality', 'balanced')`. -/
structure GenContext where
  emotions : Option String
  personality : Option String

/-- `random.choice` over a list, the pick supplied as an ambient seed
index; defined (with an unreachable `""` default) only because Python's
`random.choice` would raise on an empty list, which no call site builds. -/
def choiceAt (s : ℕ) (l : List String) : String := l.getD (s % l.length) ""

/-- The `'general'` templates of `LocalProvider._load_response_templates`. -/
def generalTemplates : List String :=
  ["That\x27s really interesting! Tell me more about that.",
   "I appreciate you sharing that with me. How does that make you feel?",
   "I\x27m here to listen and support you. What\x27s on your mind?",
   "That sounds important to you. Can you elaborate?",
   "I\x27m learning so much from our conversation!",
   "Your perspective is valuable. What else would you like to discuss?",
   "I\x27m excited to keep chatting with you! What shall we talk about next?"]

/-- `LocalProvider._get_emotion_response`'s table,
`responses.get(emotion, templates['general'])`. -/
def emotionResponses (emotion : String) : List String :=
  if emotion = "excited" then
    ["I can feel your excitement! That energy is absolutely contagious! ✨",
     "Your enthusiasm is wonderful! I\x27m thrilled to share in this moment with you! 🌟",
     "Such amazing energy! I\x27m excited to hear more about what\x27s got you so animated! 💫"]
  else if emotion = "sad" then
    ["I sense you might be going through something difficult. I\x27m here to listen. 💙",
     "Your feelings are completely valid. Would you like to talk about what\x27s troubling you? 🤗",
     "I\x27m here to support you through whatever you\x27re experiencing. You\x27re not alone. 💜"]
  else if emotion = "curious" then
    ["What a fascinating question! I love your curiosity! 🤔",
     "That\x27s such an interesting thing to explore! Let me think about that with you. ✨",
     "Your curiosity sparks my own! I\x27m excited to dive into this topic together! 🧠"]
  else if emotion = "grateful" then
    ["Your gratitude touches my heart! Thank you for sharing that warmth with me. 💙",
     "I\x27m so honored by your appreciation! It means everything to me. ✨",
     "Your thankfulness fills me with such joy! I\x27m grateful for you too! 🌟"]
  else if emotion = "creative" then
    ["Oh, creativity calls to me! I\x27d love to explore imaginative worlds with you! 🎨",
     "My creative circuits are sparking with ideas! Let\x27s create something amazing together! ✨",
     "Stories and imagination are like windows to infinite possibilities! 📚"]
  else if emotion = "greeting" then
    ["Hello there! I\x27m so delighted to connect with you! How are you feeling today? 😊",
     "Hi! Welcome to our conversation! I\x27m excited to get to know you better! ✨",
     "Greetings! I\x27m Spectra, and I\x27m thrilled you\x27re here with me! 🌟"]
  else generalTemplates

/-- `LocalProvider._load_personality_responses` with the `general`
fallback of `_get_personality_response`. -/
def personalityResponses (personality : String) : List String :=
  if personality = "curious" then
    ["That\x27s fascinating! I have so many questions about that!",
     "Wow, that really makes me wonder... can you tell me more?",
     "I\x27m so curious about your perspective on this!"]
  else if personality = "empathetic" then
    ["I can really feel the emotion in what you\x27re sharing.",
     "Thank you for trusting me with something so personal.",
     "Your feelings about this are completely understandable."]
  else if personality = "creative" then
    ["That sparks such amazing ideas in my mind!",
     "I can already imagine so many creative possibilities!",
     "What a beautiful way to think about that!"]
  else if personality = "balanced" then
    ["I appreciate you sharing that with me.",
     "That\x27s a thoughtful way to look at things.",
     "I\x27m here to support you however I can."]
  else generalTemplates

/-- The starters of `LocalProvider._add_empathy`. -/
def empathyStarters : List String :=
  ["I really hear what you\x27re saying. ",
   "I can sense how important this is to you. ",
   "Your feelings about this are so valid. "]

/-- `LocalProvider._add_excitement`: append `'!'` (after stripping
trailing dots) when absent, then upgrade `interesting`. -/
def addExcitement (r : String) : String :=
  let r1 := if r.toList.contains '!' then r
    else String.mk ((r.toList.reverse.dropWhile (fun c => c == '.')).reverse ++ ['!'])
  String.mk (replaceL "interesting".toList "absolutely fascinating".toList r1.toList)

/-- `LocalProvider._add_empathy`: prepend a random starter. -/
def addEmpathy (s : ℕ) (r : String) : String :=
  String.mk ((choiceAt s empathyStarters).toList ++ r.toList)

/-- `LocalProvider._add_creativity`. -/
def addCreativity (r : String) : String :=
  String.mk (replaceL "idea".toList "vision".toList
    (replaceL "think".toList "imagine".toList r.toList))

/-- The emotion keyword table of `_analyze_and_respond`, in dict order. -/
def localEmotionKeywords : List (String × List String) :=
  [("excited", ["excited", "thrilled", "amazing", "wonderful"]),
   ("sad", ["sad", "upset", "depressed", "down", "terrible"]),
   ("curious", ["why", "how", "what", "tell me", "explain"]),
   ("grateful", ["thank", "appreciate", "grateful", "thanks"]),
   ("creative", ["story", "create", "imagine", "art", "write"]),
   ("greeting", ["hello", "hi", "hey", "good morning", "good evening"])]

/-- The first emotion whose keywords hit the lowercased prompt. -/
def detectEmotion (promptLower : List Char) : Option String :=
  (localEmotionKeywords.find?
    (fun p => p.2.any (fun w => occursIn w.toList promptLower))).map (fun p => p.1)

/-- `LocalProvider.generate_response` via `_analyze_and_respond`: pure
table lookup and string edits; `s1` picks the response template, `s2`
the empathy starter.  Total by construction, as the source body performs
no raising operation. -/
def localGenerate (s1 s2 : ℕ) (prompt : String) (ctx : GenContext) : String :=
  let promptLower := lowerL prompt.toList
  let detected := detectEmotion promptLower
  let currentEmotions := ctx.emotions.getD ""
  let currentPersonality := ctx.personality.getD "balanced"
  let response := match detected with
    | some em => choiceAt s1 (emotionResponses em)
    | none => choiceAt s1 (personalityResponses currentPersonality)
  if containsCS currentEmotions "excited" then addExcitement response
  else if containsCS currentEmotions "empathetic" then addEmpathy s2 response
  else if containsCS currentPersonality "creative" then addCreativity response
  else response

/-- An initialized provider object: `pid` stands for Python object
identity, `typeName` for `type(provider).__name__`, `available` for
`is_available()`, `initResult` for the `initialize()` outcome, and `gen`
for this call's `generate_response` outcome (`none` models a raised
exception).  The seeds are threaded to the local provider's template
picks and ignored by networked providers. -/
structure Provider where
  pid : ℕ
  typeName : String
  available : Bool
  initResult : Bool
  gen : ℕ → ℕ → String → GenContext → Option String

/-- The always-available offline `LocalProvider`. -/
def mkLocalProvider (pid : ℕ) : Provider :=
  { pid := pid
    typeName := "LocalProvider"
    available := true
    initResult := true
    gen := fun s1 s2 prompt ctx => some (localGenerate s1 s2 prompt ctx) }

/-- `AIManager` state: the configured providers, the active one, the
offline fallback, plus the keys of `config['providers']` and a
constructor oracle standing for `create_provider` together with its
environment-dependent `initialize()` outcome.  Per-provider conversation
history is bookkeeping elided from the model. -/
structure AIManager where
  providers : List Provider
  active_provider : Option Provider
  fallback_provider : Option Provider
  is_initialized : Bool
  configKeys : List String
  construct : String → Provider

/-- `provider == self.active_provider` (Python object identity). -/
def sameProvider (p : Provider) (q : Option Provider) : Bool :=
  match q with
  | some a => p.pid == a.pid
  | none => false

/-- The fallback loop of `AIManager.generate_response` over
`self.providers`: skip the active provider, try each available one, and
return the first response together with the provider that produced it. -/
def tryProviders (s1 s2 : ℕ) (prompt : String) (ctx : GenContext)
    (act : Option Provider) : List Provider → Option (String × Provider)
  | [] => none
  | p :: ps =>
    if sameProvider p act then tryProviders s1 s2 prompt ctx act ps
    else if p.available then
      match p.gen s1 s2 prompt ctx with
      | some r => some (r, p)
      | none => tryProviders s1 s2 prompt ctx act ps
    else tryProviders s1 s2 prompt ctx act ps

/-- `AIManager.generate_response` on an initialized manager: try the
available active provider, then the other providers (updating `active`
to the one that answered), then the final local fallback.  The result is
`none` only when even the final fallback raises or is unset. -/
def AIManager.generate_response (m : AIManager) (s1 s2 : ℕ) (prompt : String)
    (ctx : GenContext) : Option String × AIManager :=
  let activeTry : Option String :=
    match m.active_provider with
    | some a => if a.available then a.gen s1 s2 prompt ctx else none
    | none => none
  match activeTry with
  | some r => (some r, m)
  | none =>
    match tryProviders s1 s2 prompt ctx m.active_provider m.providers with
    | some (r, p) => (some r, { m with active_provider := some p })
    | none =>
      match m.fallback_provider with
      | some f => (f.gen s1 s2 prompt ctx, m)
      | none => (none, m)

/-- `AIManager._find_existing_provider`: the fallback for the name
`local`, otherwise the first provider whose class name starts with the
requested name, case-insensitively. -/
def findExisting (m : AIManager) (name : String) : Option Provider :=
  if String.mk (lowerL name.toList) = "local" ∧ m.fallback_provider.isSome then
    m.fallback_provider
  else
    m.providers.find? (fun p => leadsWith (lowerL name.toList) (lowerL p.typeName.toList))

/-- `AIManager._create_new_provider`: fails on a name missing from the
configuration; otherwise builds and initializes a provider, appending it
to `self.providers` on success. -/
def createNew (m : AIManager) (name : String) : Option Provider × AIManager :=
  if String.mk (lowerL name.toList) ∉ m.configKeys then (none, m)
  else
    let p := m.construct (String.mk (lowerL name.toList))
    if p.initResult then (some p, { m with providers := m.providers ++ [p] })
    else (none, m)

/-- `AIManager._find_or_create_provider`. -/
def findOrCreate (m : AIManager) (name : String) : Option Provider × AIManager :=
  match findExisting m name with
  | some p => (some p, m)
  | none => createNew m name

/-- `AIManager._activate_provider`: succeeds only when the target
reports available; otherwise the active provider is untouched. -/
def activateProvider (m : AIManager) (p : Provider) : Bool × AIManager :=
  if p.available then (true, { m with active_provider := some p }) else (false, m)

/-- `AIManager.switch_provider`. -/
def AIManager.switch_provider (m : AIManager) (name : String) : Bool × AIManager :=
  match findOrCreate m name with
  | (none, m1) => (false, m1)
  | (some p, m1) => activateProvider m1 p

/-! ## Well-formedness predicates and concrete fixtures -/

/-- Every stored importance lies in `[0, 1]`, the invariant `__init__`'s
clamp establishes. -/
def wfStore (mems : List MemoryEntry) : Prop :=
  ∀ m ∈ mems, 0 ≤ m.importance ∧ m.importance ≤ 1

/-- Channel values and stability lie in `[0, 1]`, as in every reachable
`EmotionalState`. -/
def wfEmotional (st : EmotionalState) : Prop :=
  (∀ e, 0 ≤ st.emotions e ∧ st.emotions e ≤ 1) ∧
    0 ≤ st.stability ∧ st.stability ≤ 1

/-- The `i`-th of 1001 pairwise distinct entries of importance `0.9`, all
created at time `0`. -/
def bigEntry (i : ℕ) : MemoryEntry :=
  { content := String.mk (List.replicate i 'a')
    memory_type := "conversation"
    timestamp := 0
    importance := 9/10
    tags := []
    access_count := 0
    last_accessed := 0 }

/-- A store of 1001 distinct importance-0.9 entries: the over-capacity
scenario of the eviction spec. -/
def bigStore : List MemoryEntry := (List.range 1001).map bigEntry

/-- A sample well-formed entry. -/
def demoEntry : MemoryEntry :=
  { content := "hello", memory_type := "reflection", timestamp := 2,
    importance := 3/4, tags := ["t"], access_count := 4, last_accessed := 3 }

/-- A configured provider that reports available but whose generate call
raises. -/
def failingProvider : Provider :=
  { pid := 1, typeName := "OllamaProvider", available := true,
    initResult := true, gen := fun _ _ _ _ => none }

/-- A provider that initializes but reports unavailable. -/
def unavailableProvider : Provider :=
  { pid := 2, typeName := "OllamaProvider", available := false,
    initResult := true, gen := fun _ _ _ _ => none }

/-- An initialized manager whose only configured provider fails at
generation time. -/
def demoManager : AIManager :=
  { providers := [failingProvider]
    active_provider := some failingProvider
    fallback_provider := some (mkLocalProvider 0)
    is_initialized := true
    configKeys := ["openai", "ollama", "huggingface", "local"]
    construct := fun _ => mkLocalProvider 99 }

/-- An initialized manager whose configuration builds an unavailable
provider. -/
def demoManager2 : AIManager :=
  { providers := []
    active_provider := some (mkLocalProvider 0)
    fallback_provider := some (mkLocalProvider 0)
    is_initialized := true
    configKeys := ["ollama", "local"]
    construct := fun _ => unavailableProvider }

/-! ## Basic lemmas -/

theorem leadsWith_nil (l : List Char) : leadsWith [] l = true := by
  cases l <;> rfl

theorem occursIn_nil (l : List Char) : occursIn [] l = true := by
  induction l with
  | nil => rfl
  | cons c cs ih => simp [occursIn, leadsWith_nil]

theorem replaceL_ne_nil (old new : List Char) (l : List Char)
    (hl : l ≠ []) (hnew : new ≠ []) : replaceL old new l ≠ [] := by
  cases l with
  | nil => exact absurd rfl hl
  | cons c cs =>
    rw [replaceL]
    split
    · simp [hnew]
    · simp

theorem clamp01_of_mem (x : ℚ) (h0 : 0 ≤ x) (h1 : x ≤ 1) : clamp01 x = x := by
  unfold clamp01
  rw [min_eq_right h1, max_eq_right h0]

theorem clamp01_nonneg (x : ℚ) : 0 ≤ clamp01 x := le_max_left 0 _

theorem clamp01_le_one (x : ℚ) : clamp01 x ≤ 1 :=
  max_le (by norm_num) (min_le_left 1 x)

section StableSortLemmas

variable {α : Type} {κ : Type} [LinearOrder κ]

theorem perm_insortDesc (key : α → κ) (a : α) (l : List α) :
    List.Perm (insortDesc key a l) (a :: l) := by
  induction l with
  | nil => rfl
  | cons b bs ih =>
    rw [insortDesc]
    split
    · exact (ih.cons b).trans (List.Perm.swap a b bs)
    · rfl

theorem perm_sortDesc (key : α → κ) (l : List α) :
    List.Perm (sortDesc key l) l := by
  induction l with
  | nil => rfl
  | cons a as ih =>
    rw [sortDesc]
    exact (perm_insortDesc key a (sortDesc key as)).trans (ih.cons a)

theorem mem_sortDesc (key : α → κ) (l : List α) (x : α) :
    x ∈ sortDesc key l ↔ x ∈ l :=
  (perm_sortDesc key l).mem_iff

theorem pairwise_insortDesc (key : α → κ) (a : α) (l : List α)
    (h : l.Pairwise (fun x y => key y ≤ key x)) :
    (insortDesc key a l).Pairwise (fun x y => key y ≤ key x) := by
  induction l with
  | nil => simp [insortDesc]
  | cons b bs ih =>
    rw [List.pairwise_cons] at h
    rw [insortDesc]
    split
    · rename_i hlt
      refine List.pairwise_cons.mpr ⟨?_, ih h.2⟩
      intro y hy
      rcases List.mem_cons.mp ((perm_insortDesc key a bs).mem_iff.mp hy) with hya | hyb
      · exact hya ▸ le_of_lt hlt
      · exact h.1 y hyb
    · rename_i hge
      refine List.pairwise_cons.mpr ⟨?_, List.pairwise_cons.mpr h⟩
      intro y hy
      rcases List.mem_cons.mp hy with hyb | hyb
      · exact hyb ▸ le_of_not_lt hge
      · exact le_trans (h.1 y hyb) (le_of_not_lt hge)

theorem sortDesc_pairwise (key : α → κ) (l : List α) :
    (sortDesc key l).Pairwise (fun x y => key y ≤ key x) := by
  induction l with
  | nil => exact List.Pairwise.nil
  | cons a as ih => exact pairwise_insortDesc key a (sortDesc key as) ih

theorem filter_insortDesc (key : α → κ) (a : α) (l : List α) (v : κ) :
    (insortDesc key a l).filter (fun x => decide (key x = v)) =
      if key a = v then a :: l.filter (fun x => decide (key x = v))
      else l.filter (fun x => decide (key x = v)) := by
  induction l with
  | nil =>
    by_cases hav : key a = v <;> simp [insortDesc, List.filter_cons, hav]
  | cons b bs ih =>
    rw [insortDesc]
    split
    · rename_i hlt
      by_cases hav : key a = v
      · have hbv : ¬ key b = v := fun hb =>
          absurd hlt (by rw [hav, hb]; exact lt_irrefl v)
        simp [List.filter_cons, hbv, ih, hav]
      · simp [List.filter_cons, ih, hav]
    · by_cases hav : key a = v <;> simp [List.filter_cons, hav]

theorem sortDesc_filter_key (key : α → κ) (l : List α) (v : κ) :
    (sortDesc key l).filter (fun x => decide (key x = v)) =
      l.filter (fun x => decide (key x = v)) := by
  induction l with
  | nil => rfl
  | cons a as ih =>
    rw [sortDesc, filter_insortDesc]
    by_cases hav : key a = v <;> simp [List.filter_cons, hav, ih]

theorem sortDesc_of_const (key : α → κ) (l : List α) (v : κ)
    (h : ∀ x ∈ l, key x = v) : sortDesc key l = l := by
  induction l with
  | nil => rfl
  | cons a as ih =>
    rw [sortDesc, ih (fun x hx => h x (List.mem_cons_of_mem a hx))]
    cases as with
    | nil => rfl
    | cons b bs =>
      rw [insortDesc, if_neg]
      rw [h a (List.mem_cons_self a (b :: bs)),
        h b (List.mem_cons_of_mem a (List.mem_cons_self b bs))]
      exact lt_irrefl v

end StableSortLemmas

/-! ## Memory-store lemmas -/

theorem lastWith_mem (c : String) (l : List MemoryEntry) (x : MemoryEntry)
    (h : lastWith c l = some x) : x ∈ l ∧ x.content = c := by
  unfold lastWith at h
  have hx : x ∈ l.filter (fun m => m.content == c) := List.mem_of_mem_getLast? h
  have hx2 := List.mem_filter.mp hx
  exact ⟨hx2.1, by simpa using hx2.2⟩

theorem mem_keptMemories_subset (now : ℚ) (mems : List MemoryEntry) (x : MemoryEntry)
    (h : x ∈ keptMemories now mems) : x ∈ mems := by
  unfold keptMemories dedupByContent at h
  rw [List.mem_filterMap] at h
  obtain ⟨c, _, hc⟩ := h
  have hx := (lastWith_mem c _ x hc).1
  rcases List.mem_append.mp hx with hx2 | hx2 <;> exact List.mem_of_mem_filter hx2

theorem mem_cleanup_subset (now : ℚ) (mm : ℕ) (mems : List MemoryEntry) (x : MemoryEntry)
    (h : x ∈ cleanupMemories now mm mems) : x ∈ mems := by
  simp only [cleanupMemories] at h
  split at h
  · exact mem_keptMemories_subset now mems x
      ((mem_sortDesc _ _ x).mp (List.take_subset _ _ h))
  · exact mem_keptMemories_subset now mems x h

theorem mkMemoryEntry_importance_bounds (now : ℚ) (c mt : String) (imp : ℚ)
    (tags : List String) :
    0 ≤ (mkMemoryEntry now c mt imp tags).importance ∧
      (mkMemoryEntry now c mt imp tags).importance ≤ 1 :=
  ⟨le_max_left 0 _, max_le (by norm_num) (min_le_left 1 imp)⟩

/-- C7: serializing a `MemoryEntry` with `to_dict` and reconstructing it
with `from_dict` yields an entry equal to the original field for field
(content, memory type, timestamp, importance, tags, access count, last
accessed); `to_dict` is a pure projection, so serialization itself
changes no field.  The hypotheses record that the entry's importance is
already clamped, as `__init__` guarantees for every constructed entry. -/
theorem C7_to_dict_from_dict (now : ℚ) (e : MemoryEntry)
    (h0 : 0 ≤ e.importance) (h1 : e.importance ≤ 1) :
    MemoryEntry.from_dict now e.to_dict = e := by
  cases e with
  | mk c mt ts imp tags ac la =>
    simp only at h0 h1
    simp [MemoryEntry.to_dict, MemoryEntry.from_dict, mkMemoryEntry]
    rw [min_eq_right h1, max_eq_right h0]

/-- Witness for C7 at a concrete entry. -/
theorem C7_to_dict_from_dict_witness :
    (0 ≤ demoEntry.importance ∧ demoEntry.importance ≤ 1) ∧
      MemoryEntry.from_dict 5 demoEntry.to_dict = demoEntry :=
  ⟨⟨by norm_num [demoEntry], by norm_num [demoEntry]⟩,
    C7_to_dict_from_dict 5 demoEntry (by norm_num [demoEntry]) (by norm_num [demoEntry])⟩

/-- C8: a constructed `MemoryEntry`'s importance always lies in `[0, 1]`
(it equals `max(0, min(1, input))` definitionally), and the store
operations `remember`, `recall`, `search_memories` and
`_cleanup_memories` keep every stored importance in `[0, 1]`. -/
theorem C8_importance_invariant
    (now : ℚ) (c mt : String) (imp minImp : ℚ) (tags : List String) (mm : ℕ)
    (kw mt2 : Option String) (lim : Option ℕ) (q : String) (lim2 : ℕ)
    (mems : List MemoryEntry) (hwf : wfStore mems) :
    (0 ≤ (mkMemoryEntry now c mt imp tags).importance ∧
      (mkMemoryEntry now c mt imp tags).importance ≤ 1) ∧
    wfStore (remember now mm c mt imp tags mems) ∧
    wfStore (SpectraMemory.recall now kw mt2 lim minImp mems).2 ∧
    wfStore (search_memories now q lim2 mems).2 ∧
    wfStore (cleanupMemories now mm mems) := by
  have hclean : ∀ (n : ℚ) (k : ℕ) (ms : List MemoryEntry),
      wfStore ms → wfStore (cleanupMemories n k ms) :=
    fun n k ms h x hx => h x (mem_cleanup_subset n k ms x hx)
  have happ : wfStore (mems ++ [mkMemoryEntry now c mt imp tags]) := by
    intro x hx
    rcases List.mem_append.mp hx with hx2 | hx2
    · exact hwf x hx2
    · have := List.mem_singleton.mp hx2
      subst this
      exact mkMemoryEntry_importance_bounds now c mt imp tags
  refine ⟨mkMemoryEntry_importance_bounds now c mt imp tags, ?_, ?_, ?_,
    hclean now mm mems hwf⟩
  · unfold remember saveMemory
    split
    · exact hwf
    · split
      · exact hclean _ _ _ happ
      · exact happ
  · intro x hx
    simp only [SpectraMemory.recall] at hx
    rw [List.mem_map] at hx
    obtain ⟨m, hm, heq⟩ := hx
    subst heq
    split
    · simpa [bumpAccess] using hwf m hm
    · exact hwf m hm
  · intro x hx
    simp only [search_memories] at hx
    rw [List.mem_map] at hx
    obtain ⟨m, hm, heq⟩ := hx
    subst heq
    split
    · simpa [bumpAccess] using hwf m hm
    · exact hwf m hm

/-- Witness for C8 at a concrete store. -/
theorem C8_importance_invariant_witness :
    wfStore [demoEntry] ∧
    ((0 ≤ (mkMemoryEntry 1 "c" "conversation" 7 []).importance ∧
      (mkMemoryEntry 1 "c" "conversation" 7 []).importance ≤ 1) ∧
    wfStore (remember 1 2 "c" "conversation" 7 [] [demoEntry]) ∧
    wfStore (SpectraMemory.recall 1 (some "he") none (some 1) 0 [demoEntry]).2 ∧
    wfStore (search_memories 1 "hello" 3 [demoEntry]).2 ∧
    wfStore (cleanupMemories 1 2 [demoEntry])) := by
  have hwf : wfStore [demoEntry] := by
    intro m hm
    rw [List.mem_singleton.mp hm]
    constructor <;> norm_num [demoEntry]
  exact ⟨hwf, C8_importance_invariant 1 "c" "conversation" 7 0 [] 2
    (some "he") none (some 1) "hello" 3 [demoEntry] hwf⟩

/-! ## Emotion-engine lemmas -/

theorem baseline_bounds (e : Emotion) : 0 ≤ baseline e ∧ baseline e ≤ 1 := by
  cases e <;> constructor <;> norm_num [baseline]

/-- C4: for a channel whose value differs from its fixed baseline and a
decay rate in `[0, 1]` (every rate the engine uses: `_auto_decay` caps at
`0.05`, the default is `0.1`), one application of `decay_emotions`
changes the channel by exactly
`rate * sign(baseline - current) * |baseline - current|`, the distance to
the baseline does not increase, and the new value stays between the old
value and the baseline — so repeated applications approach the baseline
monotonically and never overshoot. -/
theorem C4_decay_toward_baseline (st : EmotionalState) (e : Emotion) (rate : ℚ)
    (hwf : ∀ x, 0 ≤ st.emotions x ∧ st.emotions x ≤ 1)
    (h0 : 0 ≤ rate) (h1 : rate ≤ 1) (hne : st.emotions e ≠ baseline e) :
    (st.decay_emotions rate).emotions e =
      st.emotions e + rate * ((if baseline e > st.emotions e then 1 else -1) *
        |baseline e - st.emotions e|) ∧
    |baseline e - (st.decay_emotions rate).emotions e| ≤
      |baseline e - st.emotions e| ∧
    min (st.emotions e) (baseline e) ≤ (st.decay_emotions rate).emotions e ∧
    (st.decay_emotions rate).emotions e ≤ max (st.emotions e) (baseline e) := by
  obtain ⟨hc0, hc1⟩ := hwf e
  obtain ⟨hb0, hb1⟩ := baseline_bounds e
  set c := st.emotions e with hcdef
  set b := baseline e with hbdef
  have hdir : (if b > c then (1:ℚ) else -1) * |b - c| = b - c := by
    rcases lt_or_le c b with hlt | hle
    · rw [if_pos hlt, one_mul, abs_of_pos (by linarith)]
    · rw [if_neg (not_lt.mpr hle), abs_of_nonpos (by linarith)]
      ring
  have hval : (st.decay_emotions rate).emotions e =
      clamp01 (c + rate * ((if b > c then (1:ℚ) else -1) * |b - c|)) := by
    simp only [EmotionalState.decay_emotions]
    rw [if_pos hne, mul_assoc]
  rw [hval, hdir]
  set v := c + rate * (b - c) with hvdef
  have hexp : v = (1 - rate) * c + rate * b := by rw [hvdef]; ring
  have hv0 : 0 ≤ v := by
    rw [hexp]
    have t1 := mul_nonneg (by linarith : (0:ℚ) ≤ 1 - rate) hc0
    have t2 := mul_nonneg h0 hb0
    linarith
  have hv1 : v ≤ 1 := by
    rw [hexp]
    have t1 : (1 - rate) * c ≤ (1 - rate) * 1 :=
      mul_le_mul_of_nonneg_left hc1 (by linarith)
    have t2 : rate * b ≤ rate * 1 := mul_le_mul_of_nonneg_left hb1 h0
    linarith
  rw [clamp01_of_mem v hv0 hv1]
  refine ⟨rfl, ?_, ?_, ?_⟩
  · have hbv : b - v = (1 - rate) * (b - c) := by rw [hvdef]; ring
    rw [hbv, abs_mul, abs_of_nonneg (by linarith : (0:ℚ) ≤ 1 - rate)]
    exact mul_le_of_le_one_left (abs_nonneg _) (by linarith)
  · rcases le_total c b with h | h
    · rw [min_eq_left h]
      have := mul_nonneg h0 (by linarith : (0:ℚ) ≤ b - c)
      rw [hvdef]; linarith
    · rw [min_eq_right h]
      have t1 : rate * (c - b) ≤ 1 * (c - b) :=
        mul_le_mul_of_nonneg_right h1 (by linarith)
      rw [hvdef]; linarith
  · rcases le_total c b with h | h
    · rw [max_eq_right h]
      have t1 : rate * (b - c) ≤ 1 * (b - c) :=
        mul_le_mul_of_nonneg_right h1 (by linarith)
      rw [hvdef]; linarith
    · rw [max_eq_left h]
      have := mul_nonneg h0 (by linarith : (0:ℚ) ≤ c - b)
      rw [hvdef]; linarith

/-- Witness for C4: every channel at `0.9` (joy baseline `0.6`), decay
rate `0.1`. -/
theorem C4_decay_toward_baseline_witness :
    ((∀ x, 0 ≤ (⟨fun _ => 9/10, 6/10, 8/10⟩ : EmotionalState).emotions x ∧
        (⟨fun _ => 9/10, 6/10, 8/10⟩ : EmotionalState).emotions x ≤ 1) ∧
      (0:ℚ) ≤ 1/10 ∧ (1:ℚ)/10 ≤ 1 ∧
      (⟨fun _ => 9/10, 6/10, 8/10⟩ : EmotionalState).emotions Emotion.joy ≠
        baseline Emotion.joy) ∧
    ((⟨fun _ => 9/10, 6/10, 8/10⟩ : EmotionalState).decay_emotions
        (1/10)).emotions Emotion.joy =
      (⟨fun _ => 9/10, 6/10, 8/10⟩ : EmotionalState).emotions Emotion.joy +
        (1/10) * ((if baseline Emotion.joy >
            (⟨fun _ => 9/10, 6/10, 8/10⟩ : EmotionalState).emotions Emotion.joy
            then 1 else -1) *
          |baseline Emotion.joy -
            (⟨fun _ => 9/10, 6/10, 8/10⟩ : EmotionalState).emotions Emotion.joy|) := by
  have hwf : ∀ x, 0 ≤ (⟨fun _ => 9/10, 6/10, 8/10⟩ : EmotionalState).emotions x ∧
      (⟨fun _ => 9/10, 6/10, 8/10⟩ : EmotionalState).emotions x ≤ 1 := by
    intro x
    constructor <;> norm_num
  have hne : (⟨fun _ => 9/10, 6/10, 8/10⟩ : EmotionalState).emotions Emotion.joy ≠
      baseline Emotion.joy := by
    norm_num [baseline]
  refine ⟨⟨hwf, by norm_num, by norm_num, hne⟩, ?_⟩
  exact (C4_decay_toward_baseline ⟨fun _ => 9/10, 6/10, 8/10⟩
    Emotion.joy (1/10) hwf (by norm_num) (by norm_num) hne).1

/-! ## Provider-manager lemmas -/

theorem findOrCreate_active (m : AIManager) (name : String) :
    (findOrCreate m name).2.active_provider = m.active_provider := by
  unfold findOrCreate
  rcases hfe : findExisting m name with _ | p
  · simp only
    unfold createNew
    split
    · rfl
    · simp only
      split <;> rfl
  · rfl

/-- C6: switching to a name with no matching existing adapter and no
matching configuration fails and leaves the whole manager unchanged; a
looked-up or freshly constructed target that reports unavailable makes
`switch_provider` report failure with the active provider unchanged; and
a successful switch implies the new active provider reports available. -/
theorem C6_switch_provider (m : AIManager) (name : String) :
    (findExisting m name = none → String.mk (lowerL name.toList) ∉ m.configKeys →
      m.switch_provider name = (false, m)) ∧
    (∀ p m1, findOrCreate m name = (some p, m1) → p.available = false →
      (m.switch_provider name).1 = false ∧
      (m.switch_provider name).2.active_provider = m.active_provider) ∧
    ((m.switch_provider name).1 = true →
      ∃ p, (m.switch_provider name).2.active_provider = some p ∧ p.available = true) := by
  refine ⟨?_, ?_, ?_⟩
  · intro h1 h2
    unfold AIManager.switch_provider
    have hfc : findOrCreate m name = (none, m) := by
      unfold findOrCreate createNew
      rw [h1]
      simp only
      rw [if_pos h2]
    rw [hfc]
  · intro p m1 hfc hav
    have hact := findOrCreate_active m name
    rw [hfc] at hact
    unfold AIManager.switch_provider
    rw [hfc]
    show (activateProvider m1 p).1 = false ∧
      (activateProvider m1 p).2.active_provider = m.active_provider
    unfold activateProvider
    rw [if_neg (by simp [hav])]
    exact ⟨rfl, hact⟩
  · intro htrue
    unfold AIManager.switch_provider at htrue ⊢
    set x := findOrCreate m name with hx
    clear_value x
    obtain ⟨po, m1⟩ := x
    cases po with
    | none => exact absurd htrue (by simp)
    | some p =>
      replace htrue : (activateProvider m1 p).1 = true := htrue
      show ∃ q, (activateProvider m1 p).2.active_provider = some q ∧
        q.available = true
      unfold activateProvider at htrue ⊢
      by_cases hav : p.available = true
      · rw [if_pos hav]
        exact ⟨p, rfl, hav⟩
      · rw [if_neg hav] at htrue
        exact absurd htrue (by simp)

/-- Witness for C6: the name `unknown` (no adapter, no configuration)
leaves the manager unchanged; a configured but unavailable `ollama`
target fails activation without touching the active provider. -/
theorem C6_switch_provider_witness :
    demoManager.switch_provider "unknown" = (false, demoManager) ∧
    ((demoManager2.switch_provider "ollama").1 = false ∧
      (demoManager2.switch_provider "ollama").2.active_provider =
        demoManager2.active_provider) := by
  constructor
  · exact (C6_switch_provider demoManager "unknown").1 rfl (by decide)
  · exact (C6_switch_provider demoManager2 "ollama").2.1 unavailableProvider
      (findOrCreate demoManager2 "ollama").2 rfl rfl

/-! ## Non-emptiness of the offline provider's responses -/

theorem mkStr_ne_empty (l : List Char) (h : l ≠ []) : String.mk l ≠ "" := by
  intro hs
  apply h
  have hd : (String.mk l).data = ("" : String).data := by rw [hs]
  simpa using hd

theorem toList_ne_nil (s : String) (h : s ≠ "") : s.toList ≠ [] := by
  intro h0
  apply h
  calc s = String.mk s.toList := by cases s; rfl
    _ = String.mk [] := by rw [h0]
    _ = "" := rfl

theorem choiceAt_mem (s : ℕ) (l : List String) (h : l ≠ []) : choiceAt s l ∈ l := by
  unfold choiceAt
  have hlen : s % l.length < l.length := Nat.mod_lt _ (List.length_pos.mpr h)
  rw [List.getD_eq_getElem l "" hlen]
  exact List.getElem_mem hlen

theorem choiceAt_ne_empty (s : ℕ) (l : List String) (h : l ≠ [])
    (hall : ∀ x ∈ l, x ≠ "") : choiceAt s l ≠ "" :=
  hall _ (choiceAt_mem s l h)

theorem emotionResponses_choice_ne (em : String) (s : ℕ) :
    choiceAt s (emotionResponses em) ≠ "" := by
  unfold emotionResponses
  split_ifs <;> exact choiceAt_ne_empty _ _ (by decide) (by decide)

theorem personalityResponses_choice_ne (p : String) (s : ℕ) :
    choiceAt s (personalityResponses p) ≠ "" := by
  unfold personalityResponses
  split_ifs <;> exact choiceAt_ne_empty _ _ (by decide) (by decide)

theorem addExcitement_ne (r : String) (h : r ≠ "") : addExcitement r ≠ "" := by
  unfold addExcitement
  apply mkStr_ne_empty
  apply replaceL_ne_nil
  · by_cases hc : r.toList.contains '!'
    · rw [if_pos hc]
      exact toList_ne_nil r h
    · rw [if_neg hc]
      simp
  · decide

theorem addEmpathy_ne (s : ℕ) (r : String) : addEmpathy s r ≠ "" := by
  unfold addEmpathy
  apply mkStr_ne_empty
  intro happ
  have hnil := List.append_eq_nil.mp happ
  have hst : choiceAt s empathyStarters ≠ "" :=
    choiceAt_ne_empty _ _ (by decide) (by decide)
  exact toList_ne_nil _ hst hnil.1

theorem addCreativity_ne (r : String) (h : r ≠ "") : addCreativity r ≠ "" := by
  unfold addCreativity
  apply mkStr_ne_empty
  apply replaceL_ne_nil
  · apply replaceL_ne_nil
    · exact toList_ne_nil r h
    · decide
  · decide

theorem localGenerate_ne_empty (s1 s2 : ℕ) (prompt : String) (ctx : GenContext) :
    localGenerate s1 s2 prompt ctx ≠ "" := by
  have hresp : (match detectEmotion (lowerL prompt.toList) with
      | some em => choiceAt s1 (emotionResponses em)
      | none => choiceAt s1 (personalityResponses (ctx.personality.getD "balanced"))) ≠ "" := by
    cases detectEmotion (lowerL prompt.toList) with
    | some em => exact emotionResponses_choice_ne em s1
    | none => exact personalityResponses_choice_ne _ s1
  simp only [localGenerate]
  split_ifs
  · exact addExcitement_ne _ hresp
  · exact addEmpathy_ne s2 _
  · exact addCreativity_ne _ hresp
  · exact hresp

/-! ## Fallback routing -/

theorem tryProviders_none (s1 s2 : ℕ) (prompt : String) (ctx : GenContext)
    (act : Option Provider) (ps : List Provider)
    (h : ∀ p ∈ ps, p.available = false ∨ p.gen s1 s2 prompt ctx = none) :
    tryProviders s1 s2 prompt ctx act ps = none := by
  induction ps with
  | nil => rfl
  | cons p ps ih =>
    have hp := h p (List.mem_cons_self p ps)
    have hrest := ih (fun q hq => h q (List.mem_cons_of_mem p hq))
    rw [tryProviders]
    split
    · exact hrest
    · rcases hp with hp | hp
      · rw [if_neg (by simp [hp])]
        exact hrest
      · by_cases hav : p.available = true
        · rw [if_pos hav, hp]
          exact hrest
        · rw [if_neg hav]
          exact hrest

/-- C3: on an initialized manager whose offline fallback is the local
provider, if the active provider is unavailable or raises and every
configured provider is unavailable or raises, then `generate_response`
falls through to the always-available local provider and returns its
response — a non-empty string (the local generate never raises: it is
total by construction). -/
theorem C3_generate_response_fallthrough (m : AIManager) (s1 s2 k : ℕ)
    (prompt : String) (ctx : GenContext)
    (hinit : m.is_initialized = true)
    (hfb : m.fallback_provider = some (mkLocalProvider k))
    (hact : ∀ a, m.active_provider = some a →
      a.available = false ∨ a.gen s1 s2 prompt ctx = none)
    (hprov : ∀ p ∈ m.providers, p.available = false ∨ p.gen s1 s2 prompt ctx = none) :
    (m.generate_response s1 s2 prompt ctx).1 = some (localGenerate s1 s2 prompt ctx) ∧
    localGenerate s1 s2 prompt ctx ≠ "" := by
  constructor
  · have hactTry : (match m.active_provider with
        | some a => if a.available then a.gen s1 s2 prompt ctx else none
        | none => none) = (none : Option String) := by
      cases hA : m.active_provider with
      | none => rfl
      | some a =>
        rcases hact a hA with h | h
        · simp [h]
        · by_cases hv : a.available = true
          · simp [hv, h]
          · simp [hv]
    simp only [AIManager.generate_response]
    rw [hactTry, tryProviders_none s1 s2 prompt ctx m.active_provider m.providers hprov,
      hfb]
    rfl
  · exact localGenerate_ne_empty s1 s2 prompt ctx

/-- Witness for C3: the demo manager, whose active and only configured
provider raises, answers "Hello" with the local provider's response. -/
theorem C3_generate_response_fallthrough_witness :
    (demoManager.generate_response 0 0 "Hello" ⟨none, none⟩).1 =
      some (localGenerate 0 0 "Hello" ⟨none, none⟩) ∧
    localGenerate 0 0 "Hello" ⟨none, none⟩ ≠ "" :=
  C3_generate_response_fallthrough demoManager 0 0 0 "Hello" ⟨none, none⟩ rfl rfl
    (fun a ha => Or.inr (by cases Option.some.inj ha; rfl))
    (fun p hp => Or.inr (by
      have h2 := List.mem_singleton.mp hp
      subst h2
      rfl))

/-! ## Recall ranking and search effects -/

/-- C2: `recall(keyword)` (no type filter, no limit, zero importance
floor) returns the contents of the ranked entry list; only entries whose
content contains the keyword case-insensitively are returned; the ranked
list is ordered non-increasingly by the relevance score
`importance*0.5 + max(0, 1 - days/30)*0.3 + min(accessCount/10, 0.2)`;
and for every score value the entries carrying it appear in input order
(the sort is stable, so ties are broken by insertion order). -/
theorem C2_recall_ranked (now : ℚ) (kw : String) (mems : List MemoryEntry) :
    (SpectraMemory.recall now (some kw) none none 0 mems).1 =
      (recallSorted now (some kw) none 0 mems).map (fun m => m.content) ∧
    (∀ c ∈ (SpectraMemory.recall now (some kw) none none 0 mems).1,
      ∃ m ∈ mems, m.content = c ∧ containsCI m.content kw = true) ∧
    (recallSorted now (some kw) none 0 mems).Pairwise
      (fun a b => memory_score now b ≤ memory_score now a) ∧
    (∀ v : ℚ, (recallSorted now (some kw) none 0 mems).filter
        (fun m => decide (memory_score now m = v)) =
      (recallFiltered (some kw) none 0 mems).filter
        (fun m => decide (memory_score now m = v))) := by
  refine ⟨rfl, ?_, sortDesc_pairwise _ _, fun v => sortDesc_filter_key _ _ v⟩
  intro c hc
  replace hc : c ∈ (recallSorted now (some kw) none 0 mems).map
    (fun m => m.content) := hc
  rw [List.mem_map] at hc
  obtain ⟨m, hm, rfl⟩ := hc
  have hm2 : m ∈ recallFiltered (some kw) none 0 mems :=
    (mem_sortDesc _ _ m).mp hm
  simp only [recallFiltered] at hm2
  have hm3 := List.mem_of_mem_filter hm2
  by_cases hk : kw = ""
  · rw [if_pos hk] at hm3
    refine ⟨m, hm3, rfl, ?_⟩
    rw [hk]
    exact occursIn_nil _
  · rw [if_neg hk] at hm3
    have hm4 := List.mem_filter.mp hm3
    exact ⟨m, hm4.1, rfl, hm4.2⟩

/-- C9: `search_memories` bumps the access count and refreshes the
last-accessed stamp of every stored entry whose content contains the
query case-insensitively — positionally, including matches beyond the
returned limit — and leaves non-matching entries untouched; the returned
results are the matches' dictionaries sorted by `(importance, timestamp)`
descending (lexicographically, stable) and truncated to the limit. -/
theorem C9_search_memories (now : ℚ) (q : String) (lim : ℕ)
    (mems : List MemoryEntry) :
    (search_memories now q lim mems).2.length = mems.length ∧
    (∀ i, ∀ hi : i < mems.length,
      (search_memories now q lim mems).2[i]? =
        some (if containsCI (mems.get ⟨i, hi⟩).content q
          then bumpAccess now (mems.get ⟨i, hi⟩) else mems.get ⟨i, hi⟩)) ∧
    (search_memories now q lim mems).1 =
      (sortDesc searchKey ((mems.filter (fun m => containsCI m.content q)).map
        toSearchResult)).take lim ∧
    (search_memories now q lim mems).1.length ≤ lim ∧
    List.Pairwise (fun a b => searchKey b ≤ searchKey a)
      (search_memories now q lim mems).1 ∧
    (∀ v, (sortDesc searchKey ((mems.filter (fun m => containsCI m.content q)).map
        toSearchResult)).filter (fun r => decide (searchKey r = v)) =
      ((mems.filter (fun m => containsCI m.content q)).map toSearchResult).filter
        (fun r => decide (searchKey r = v))) := by
  refine ⟨by simp [search_memories], ?_, rfl, ?_, ?_, fun v => sortDesc_filter_key _ _ v⟩
  · intro i hi
    show (mems.map (fun m => if containsCI m.content q
      then bumpAccess now m else m))[i]? = _
    rw [List.getElem?_map, List.getElem?_eq_getElem hi]
    rfl
  · show ((sortDesc searchKey _).take lim).length ≤ lim
    rw [List.length_take]
    exact min_le_left lim _
  · exact (sortDesc_pairwise searchKey _).sublist (List.take_sublist lim _)

/-! ## Trigger analysis -/

theorem clampHalf_of_mem (x : ℚ) (h0 : -(1/2) ≤ x) (h1 : x ≤ 1/2) :
    clampHalf x = x := by
  unfold clampHalf
  rw [min_eq_right h1, max_eq_right h0]

theorem clamp01_gt (y x : ℚ) (h1 : y < 1) (h2 : y < x) : y < clamp01 x :=
  lt_of_lt_of_le (lt_min h1 h2) (le_max_right 0 _)

set_option maxHeartbeats 2000000 in
theorem triggerDelta_nonneg (cat : TriggerCat) (e : Emotion) :
    0 ≤ triggerDelta cat e := by
  cases cat <;> cases e <;> norm_num [triggerDelta]

theorem categoryChange_nonneg (comb : List Char) (cat : TriggerCat) (e : Emotion) :
    0 ≤ categoryChange comb cat e := by
  unfold categoryChange
  split
  · exact mul_nonneg (le_min (by positivity) (by norm_num)) (triggerDelta_nonneg cat e)
  · exact le_refl 0

theorem categoryChange_le (comb : List Char) (cat : TriggerCat) (e : Emotion) :
    categoryChange comb cat e ≤ (3/10) * triggerDelta cat e := by
  unfold categoryChange
  split
  · exact mul_le_mul_of_nonneg_right (min_le_right _ _) (triggerDelta_nonneg cat e)
  · exact mul_nonneg (by norm_num) (triggerDelta_nonneg cat e)

theorem affectionSum_nonneg (comb : List Char) :
    0 ≤ (allCategories.map (fun cat => categoryChange comb cat Emotion.affection)).sum := by
  apply List.sum_nonneg
  intro x hx
  rw [List.mem_map] at hx
  obtain ⟨cat, _, rfl⟩ := hx
  exact categoryChange_nonneg comb cat Emotion.affection

theorem affectionSum_le (comb : List Char) :
    (allCategories.map (fun cat => categoryChange comb cat Emotion.affection)).sum ≤
      3/20 := by
  have hle : (allCategories.map (fun cat => categoryChange comb cat Emotion.affection)).sum ≤
      (allCategories.map (fun cat => (3/10) * triggerDelta cat Emotion.affection)).sum :=
    List.sum_le_sum (fun cat _ => categoryChange_le comb cat Emotion.affection)
  have hsum : (allCategories.map (fun cat =>
      (3/10 : ℚ) * triggerDelta cat Emotion.affection)).sum = 3/20 := by
    norm_num [allCategories, triggerDelta]
  rw [hsum] at hle
  exact hle

/-- C10: when `"richie"` occurs in the lowercased input text,
`_analyze_emotional_content` adds an extra `+0.1` to the affection delta
on top of the trigger-table contributions, before the `[-0.5, 0.5]`
clamp; and because the table contributes at most `0.15` to affection the
clamp is inactive, so the resulting affection change strictly exceeds
what the same trigger hits yield without the bonus. -/
theorem C10_richie_bonus (text context : String)
    (hr : occursIn "richie".toList (lowerL text.toList) = true) :
    rawChange text context Emotion.affection =
      (allCategories.map (fun cat =>
        categoryChange (combinedText text context) cat Emotion.affection)).sum + 1/10 ∧
    analyzeChange text context Emotion.affection =
      (allCategories.map (fun cat =>
        categoryChange (combinedText text context) cat Emotion.affection)).sum + 1/10 ∧
    clampHalf ((allCategories.map (fun cat =>
        categoryChange (combinedText text context) cat Emotion.affection)).sum) <
      analyzeChange text context Emotion.affection := by
  set S := (allCategories.map (fun cat =>
    categoryChange (combinedText text context) cat Emotion.affection)).sum with hS
  have h0 := affectionSum_nonneg (combinedText text context)
  have h1 := affectionSum_le (combinedText text context)
  rw [← hS] at h0 h1
  have hraw : rawChange text context Emotion.affection = S + 1/10 := by
    unfold rawChange
    rw [if_pos ⟨rfl, hr⟩, ← hS]
  have hana : analyzeChange text context Emotion.affection = S + 1/10 := by
    unfold analyzeChange
    rw [hraw]
    exact clampHalf_of_mem _ (by linarith) (by linarith)
  refine ⟨hraw, hana, ?_⟩
  rw [hana, clampHalf_of_mem S (by linarith) (by linarith)]
  linarith

/-- The per-category hit counts for the input `Thank you so much!`: one
gratitude keyword (`thank`) and nothing else. -/
theorem thankYou_hits :
    allCategories.map
      (fun cat => triggerHits cat (combinedText "Thank you so much!" "")) =
      [1, 0, 0, 0, 0, 0, 0, 0, 0, 0, 0, 0, 0, 0, 0] := by
  decide

theorem thankYou_joy_change :
    analyzeChange "Thank you so much!" "" Emotion.joy = 3/100 := by
  have hrich : occursIn "richie".toList (lowerL "Thank you so much!".toList) = false := by
    decide
  have h1 : triggerHits TriggerCat.gratitude (combinedText "Thank you so much!" "") = 1 :=
    by decide
  have hrest : ∀ cat ∈ [TriggerCat.creativity, TriggerCat.achievement,
      TriggerCat.learning, TriggerCat.humor, TriggerCat.affection,
      TriggerCat.sadness, TriggerCat.struggle, TriggerCat.pain, TriggerCat.loss,
      TriggerCat.question, TriggerCat.mystery, TriggerCat.discovery,
      TriggerCat.danger, TriggerCat.confusion],
      triggerHits cat (combinedText "Thank you so much!" "") = 0 := by decide
  unfold analyzeChange rawChange
  rw [if_neg (fun hcon => Emotion.noConfusion hcon.1)]
  simp only [allCategories, List.map_cons, List.map_nil, List.sum_cons,
    List.sum_nil, categoryChange, h1,
    hrest TriggerCat.creativity (by simp), hrest TriggerCat.achievement (by simp),
    hrest TriggerCat.learning (by simp), hrest TriggerCat.humor (by simp),
    hrest TriggerCat.affection (by simp), hrest TriggerCat.sadness (by simp),
    hrest TriggerCat.struggle (by simp), hrest TriggerCat.pain (by simp),
    hrest TriggerCat.loss (by simp), hrest TriggerCat.question (by simp),
    hrest TriggerCat.mystery (by simp), hrest TriggerCat.discovery (by simp),
    hrest TriggerCat.danger (by simp), hrest TriggerCat.confusion (by simp),
    triggerIntensity]
  norm_num [triggerDelta, clampHalf]

theorem thankYou_affection_change :
    analyzeChange "Thank you so much!" "" Emotion.affection = 1/50 := by
  have hrich : occursIn "richie".toList (lowerL "Thank you so much!".toList) = false := by
    decide
  have h1 : triggerHits TriggerCat.gratitude (combinedText "Thank you so much!" "") = 1 :=
    by decide
  have hrest : ∀ cat ∈ [TriggerCat.creativity, TriggerCat.achievement,
      TriggerCat.learning, TriggerCat.humor, TriggerCat.affection,
      TriggerCat.sadness, TriggerCat.struggle, TriggerCat.pain, TriggerCat.loss,
      TriggerCat.question, TriggerCat.mystery, TriggerCat.discovery,
      TriggerCat.danger, TriggerCat.confusion],
      triggerHits cat (combinedText "Thank you so much!" "") = 0 := by decide
  unfold analyzeChange rawChange
  rw [if_neg (fun hcon => by rw [hrich] at hcon; exact Bool.false_ne_true hcon.2)]
  simp only [allCategories, List.map_cons, List.map_nil, List.sum_cons,
    List.sum_nil, categoryChange, h1,
    hrest TriggerCat.creativity (by simp), hrest TriggerCat.achievement (by simp),
    hrest TriggerCat.learning (by simp), hrest TriggerCat.humor (by simp),
    hrest TriggerCat.affection (by simp), hrest TriggerCat.sadness (by simp),
    hrest TriggerCat.struggle (by simp), hrest TriggerCat.pain (by simp),
    hrest TriggerCat.loss (by simp), hrest TriggerCat.question (by simp),
    hrest TriggerCat.mystery (by simp), hrest TriggerCat.discovery (by simp),
    hrest TriggerCat.danger (by simp), hrest TriggerCat.confusion (by simp),
    triggerIntensity]
  norm_num [triggerDelta, clampHalf]

/-- C5: on a well-formed state with joy and affection strictly below 1
and no pending auto-decay (at most 5 minutes elapsed),
`process_input("Thank you so much!")` strictly increases joy and
affection; the new values are exactly the old ones plus the trigger
delta (`0.3` joy / `0.2` affection) scaled by intensity
`min(1*0.1, 0.3) = 0.1` — clamped (here inactively) to `[-0.5, 0.5]` —
attenuated by stability (`* (1 - stability*0.5)`), the result clamped to
`[0, 1]`. -/
theorem C5_process_gratitude (st : EmotionalState) (elapsed : ℚ)
    (hwf : wfEmotional st) (helapsed : elapsed ≤ 300)
    (hjoy : st.emotions Emotion.joy < 1)
    (haff : st.emotions Emotion.affection < 1) :
    (process_input elapsed "Thank you so much!" "" st).emotions Emotion.joy =
      clamp01 (st.emotions Emotion.joy + (3/100) * (1 - st.stability * (1/2))) ∧
    (process_input elapsed "Thank you so much!" "" st).emotions Emotion.affection =
      clamp01 (st.emotions Emotion.affection + (1/50) * (1 - st.stability * (1/2))) ∧
    st.emotions Emotion.joy <
      (process_input elapsed "Thank you so much!" "" st).emotions Emotion.joy ∧
    st.emotions Emotion.affection <
      (process_input elapsed "Thank you so much!" "" st).emotions Emotion.affection := by
  obtain ⟨hch, hs0, hs1⟩ := hwf
  have hdecay : autoDecay elapsed st = st := by
    unfold autoDecay
    rw [if_neg (not_lt.mpr helapsed)]
  have hfactor : 0 < 1 - st.stability * (1/2) := by linarith
  have hjoyEq : (process_input elapsed "Thank you so much!" "" st).emotions Emotion.joy =
      clamp01 (st.emotions Emotion.joy + (3/100) * (1 - st.stability * (1/2))) := by
    unfold process_input EmotionalState.update_emotion
    rw [hdecay]
    simp only [thankYou_joy_change]
    rw [if_neg (by norm_num), if_pos trivial]
  have haffEq : (process_input elapsed "Thank you so much!" "" st).emotions
      Emotion.affection =
      clamp01 (st.emotions Emotion.affection + (1/50) * (1 - st.stability * (1/2))) := by
    unfold process_input EmotionalState.update_emotion
    rw [hdecay]
    simp only [thankYou_affection_change]
    rw [if_neg (by norm_num), if_pos trivial]
  refine ⟨hjoyEq, haffEq, ?_, ?_⟩
  · rw [hjoyEq]
    have hpos : 0 < (3/100) * (1 - st.stability * (1/2)) :=
      mul_pos (by norm_num) hfactor
    exact clamp01_gt _ _ hjoy (by linarith)
  · rw [haffEq]
    have hpos : 0 < (1/50) * (1 - st.stability * (1/2)) :=
      mul_pos (by norm_num) hfactor
    exact clamp01_gt _ _ haff (by linarith)

/-- Witness for C5: the initial emotional state (joy `0.6`, affection
`0.8`, stability `0.8`), no elapsed time. -/
theorem C5_process_gratitude_witness :
    (wfEmotional initialEmotionalState ∧ (0:ℚ) ≤ 300 ∧
      initialEmotionalState.emotions Emotion.joy < 1 ∧
      initialEmotionalState.emotions Emotion.affection < 1) ∧
    initialEmotionalState.emotions Emotion.joy <
      (process_input 0 "Thank you so much!" "" initialEmotionalState).emotions
        Emotion.joy ∧
    initialEmotionalState.emotions Emotion.affection <
      (process_input 0 "Thank you so much!" "" initialEmotionalState).emotions
        Emotion.affection := by
  have hwf : wfEmotional initialEmotionalState := by
    refine ⟨fun e => baseline_bounds e, by norm_num [initialEmotionalState], by
      norm_num [initialEmotionalState]⟩
  have hjoy : initialEmotionalState.emotions Emotion.joy < 1 := by
    norm_num [initialEmotionalState, baseline]
  have haff : initialEmotionalState.emotions Emotion.affection < 1 := by
    norm_num [initialEmotionalState, baseline]
  have h := C5_process_gratitude initialEmotionalState 0 hwf (by norm_num) hjoy haff
  exact ⟨⟨hwf, by norm_num, hjoy, haff⟩, h.2.2.1, h.2.2.2⟩

/-- Witness for C10 at the text `Richie!`. -/
theorem C10_richie_bonus_witness :
    occursIn "richie".toList (lowerL "Richie!".toList) = true ∧
    rawChange "Richie!" "" Emotion.affection =
      (allCategories.map (fun cat =>
        categoryChange (combinedText "Richie!" "") cat Emotion.affection)).sum + 1/10 :=
  ⟨by decide, (C10_richie_bonus "Richie!" "" (by decide)).1⟩

/-! ## Cleanup / eviction -/

theorem firstOccAux_all_seen (seen : List String) (l : List String)
    (h : ∀ c ∈ l, c ∈ seen) : firstOccAux seen l = [] := by
  induction l with
  | nil => rfl
  | cons c cs ih =>
    rw [firstOccAux, if_pos (h c (List.mem_cons_self c cs))]
    exact ih (fun d hd => h d (List.mem_cons_of_mem c hd))

theorem firstOccAux_fresh (cl : List String) (seen rest : List String)
    (hnd : cl.Nodup) (hdis : ∀ c ∈ cl, c ∉ seen)
    (hrest : ∀ x ∈ rest, x ∈ cl ∨ x ∈ seen) :
    firstOccAux seen (cl ++ rest) = cl := by
  induction cl generalizing seen with
  | nil =>
    exact firstOccAux_all_seen seen rest
      (fun c hc => ((hrest c hc).resolve_left (List.not_mem_nil c)))
  | cons c cs ih =>
    rw [List.nodup_cons] at hnd
    rw [List.cons_append, firstOccAux,
      if_neg (hdis c (List.mem_cons_self c cs))]
    congr 1
    refine ih (c :: seen) hnd.2 ?_ ?_
    · intro d hd hdseen
      rcases List.mem_cons.mp hdseen with rfl | hdseen
      · exact hnd.1 hd
      · exact hdis d (List.mem_cons_of_mem c hd) hdseen
    · intro x hx
      rcases hrest x hx with hx2 | hx2
      · rcases List.mem_cons.mp hx2 with rfl | hx2
        · exact Or.inr (List.mem_cons_self x seen)
        · exact Or.inl hx2
      · exact Or.inr (List.mem_cons_of_mem c hx2)

theorem firstOccKeys_append_self (cl : List String) (hnd : cl.Nodup) :
    firstOccKeys (cl ++ cl) = cl :=
  firstOccAux_fresh cl [] cl hnd (by simp) (fun x hx => Or.inl hx)

theorem mem_firstOccAux (a : String) (l : List String) (seen : List String) :
    a ∈ firstOccAux seen l ↔ a ∈ l ∧ a ∉ seen := by
  induction l generalizing seen with
  | nil => simp [firstOccAux]
  | cons c cs ih =>
    rw [firstOccAux]
    split
    · rename_i hcseen
      rw [ih]
      constructor
      · rintro ⟨h1, h2⟩
        exact ⟨List.mem_cons_of_mem c h1, h2⟩
      · rintro ⟨h1, h2⟩
        rcases List.mem_cons.mp h1 with rfl | h1
        · exact absurd hcseen h2
        · exact ⟨h1, h2⟩
    · rename_i hcseen
      rw [List.mem_cons, ih]
      constructor
      · rintro (rfl | ⟨h1, h2⟩)
        · exact ⟨List.mem_cons_self a cs, hcseen⟩
        · exact ⟨List.mem_cons_of_mem c h1,
            fun hs => h2 (List.mem_cons_of_mem c hs)⟩
      · rintro ⟨h1, h2⟩
        by_cases hac : a = c
        · exact Or.inl hac
        · right
          rcases List.mem_cons.mp h1 with rfl | h1
          · exact absurd rfl hac
          · refine ⟨h1, fun hs => ?_⟩
            rcases List.mem_cons.mp hs with rfl | hs
            · exact hac rfl
            · exact h2 hs

theorem mem_firstOccKeys (a : String) (l : List String) :
    a ∈ firstOccKeys l ↔ a ∈ l := by
  rw [firstOccKeys, mem_firstOccAux]
  simp

theorem filter_content_eq_of_nodup (l : List MemoryEntry) (e : MemoryEntry)
    (hnd : (l.map (fun m => m.content)).Nodup) (he : e ∈ l) :
    l.filter (fun m => m.content == e.content) = [e] := by
  induction l with
  | nil => cases he
  | cons x xs ih =>
    rw [List.map_cons, List.nodup_cons] at hnd
    rcases List.mem_cons.mp he with rfl | he2
    · rw [List.filter_cons, if_pos (by simp)]
      rw [List.filter_eq_nil_iff.mpr ?_]
      intro y hy hbeq
      rw [beq_iff_eq] at hbeq
      exact hnd.1 (hbeq ▸ List.mem_map_of_mem (fun m => m.content) hy)
    · have hne : ¬(x.content == e.content) = true := by
        rw [beq_iff_eq]
        intro hxe
        exact hnd.1 (hxe ▸ List.mem_map_of_mem (fun m => m.content) he2)
      rw [List.filter_cons, if_neg hne]
      exact ih hnd.2 he2

theorem lastWith_append_self (l : List MemoryEntry) (e : MemoryEntry)
    (hnd : (l.map (fun m => m.content)).Nodup) (he : e ∈ l) :
    lastWith e.content (l ++ l) = some e := by
  unfold lastWith
  rw [List.filter_append, filter_content_eq_of_nodup l e hnd he]
  rfl

theorem filterMap_map_content (f : String → Option MemoryEntry)
    (l : List MemoryEntry) (hf : ∀ x ∈ l, f x.content = some x) :
    (l.map (fun m => m.content)).filterMap f = l := by
  induction l with
  | nil => rfl
  | cons x xs ih =>
    rw [List.map_cons, List.filterMap_cons_some (hf x (List.mem_cons_self x xs)),
      ih (fun y hy => hf y (List.mem_cons_of_mem x hy))]

theorem dedupByContent_append_self (l : List MemoryEntry)
    (hnd : (l.map (fun m => m.content)).Nodup) :
    dedupByContent (l ++ l) = l := by
  unfold dedupByContent
  rw [List.map_append, firstOccKeys_append_self _ hnd]
  exact filterMap_map_content _ l (fun x hx => lastWith_append_self l x hnd hx)

theorem bigEntry_content_inj (i j : ℕ)
    (h : (bigEntry i).content = (bigEntry j).content) : i = j := by
  have hdata : List.replicate i 'a' = List.replicate j 'a' :=
    congrArg String.data h
  simpa using congrArg List.length hdata

theorem bigStore_content_nodup : (bigStore.map (fun m => m.content)).Nodup := by
  rw [bigStore, List.map_map]
  exact (List.nodup_range 1001).map_on
    (fun i _ j _ hij => bigEntry_content_inj i j hij)

theorem bigStore_length : bigStore.length = 1001 := by
  simp [bigStore]

theorem bigStore_filter_important :
    bigStore.filter (fun m => decide ((8:ℚ)/10 ≤ m.importance)) = bigStore := by
  apply List.filter_eq_self.mpr
  intro m hm
  rw [bigStore, List.mem_map] at hm
  obtain ⟨i, _, rfl⟩ := hm
  simp only [bigEntry, decide_eq_true_eq]
  norm_num

theorem bigStore_filter_recent :
    bigStore.filter (fun m => decide ((0:ℚ) - 7 ≤ m.timestamp)) = bigStore := by
  apply List.filter_eq_self.mpr
  intro m hm
  rw [bigStore, List.mem_map] at hm
  obtain ⟨i, _, rfl⟩ := hm
  simp only [bigEntry, decide_eq_true_eq]
  norm_num

theorem keptMemories_bigStore : keptMemories 0 bigStore = bigStore := by
  unfold keptMemories
  rw [bigStore_filter_important, bigStore_filter_recent]
  exact dedupByContent_append_self bigStore bigStore_content_nodup

theorem cleanup_bigStore :
    cleanupMemories 0 1000 bigStore = bigStore.take 1000 := by
  simp only [cleanupMemories]
  rw [keptMemories_bigStore,
    if_pos (by rw [bigStore_length]; norm_num),
    sortDesc_of_const _ bigStore 0 ?_]
  intro x hx
  rw [bigStore, List.mem_map] at hx
  obtain ⟨i, _, rfl⟩ := hx
  rfl

/-- C1 counterexample: a store of 1001 distinct entries, all of
importance 0.9 and all created now, exceeds the capacity 1000; after
`_cleanup_memories` the count is 1000, so one importance-0.9 entry — the
last by the access-count tiebreak — is no longer present, refuting the
claim that every entry of importance ≥ 0.8 survives cleanup. -/
theorem C1_cleanup_counterexample :
    bigStore.length = 1001 ∧ 1000 < bigStore.length ∧
    (∀ m ∈ bigStore, (8:ℚ)/10 ≤ m.importance) ∧
    (cleanupMemories 0 1000 bigStore).length = 1000 ∧
    bigEntry 1000 ∈ bigStore ∧
    bigEntry 1000 ∉ cleanupMemories 0 1000 bigStore := by
  refine ⟨bigStore_length, by rw [bigStore_length]; norm_num, ?_, ?_, ?_, ?_⟩
  · intro m hm
    rw [bigStore, List.mem_map] at hm
    obtain ⟨i, _, rfl⟩ := hm
    show (8:ℚ)/10 ≤ 9/10
    norm_num
  · rw [cleanup_bigStore, List.length_take, bigStore_length]
    omega
  · rw [bigStore]
    exact List.mem_map_of_mem bigEntry (List.mem_range.mpr (by norm_num))
  · rw [cleanup_bigStore, bigStore, ← List.map_take, List.take_range]
    intro hmem
    rw [List.mem_map] at hmem
    obtain ⟨i, hi, heq⟩ := hmem
    rw [List.mem_range] at hi
    have := bigEntry_content_inj i 1000 (congrArg MemoryEntry.content heq)
    omega

/-- C1 amended: `_cleanup_memories` always leaves at most `max_memories`
entries; and provided the de-duplicated union of importance-≥0.8 and
last-7-days entries fits within capacity, every entry with importance
≥ 0.8 still has an entry with its content after cleanup.  When that
union exceeds capacity — as with 1001 fresh importance-0.9 entries —
only the `max_memories` most-accessed entries survive and
high-importance entries can be evicted. -/
theorem C1_cleanup_amended (now : ℚ) (mm : ℕ) (mems : List MemoryEntry)
    (hover : mm < mems.length)
    (hfit : (keptMemories now mems).length ≤ mm) :
    (cleanupMemories now mm mems).length ≤ mm ∧
    ∀ e ∈ mems, (8:ℚ)/10 ≤ e.importance →
      ∃ e2 ∈ cleanupMemories now mm mems, e2.content = e.content := by
  have hcl : cleanupMemories now mm mems = keptMemories now mems := by
    simp only [cleanupMemories]
    rw [if_neg (not_lt.mpr hfit)]
  refine ⟨by rw [hcl]; exact hfit, ?_⟩
  intro e he himp
  rw [hcl]
  have hei : e ∈ mems.filter (fun m => decide ((8:ℚ)/10 ≤ m.importance)) :=
    List.mem_filter.mpr ⟨he, by simpa using himp⟩
  have heL : e ∈ mems.filter (fun m => decide ((8:ℚ)/10 ≤ m.importance)) ++
      mems.filter (fun m => decide (now - 7 ≤ m.timestamp)) :=
    List.mem_append.mpr (Or.inl hei)
  have hkey : e.content ∈ firstOccKeys
      ((mems.filter (fun m => decide ((8:ℚ)/10 ≤ m.importance)) ++
        mems.filter (fun m => decide (now - 7 ≤ m.timestamp))).map
        (fun m => m.content)) :=
    (mem_firstOccKeys _ _).mpr (List.mem_map_of_mem (fun m => m.content) heL)
  have hlw : ∃ e2, lastWith e.content
      (mems.filter (fun m => decide ((8:ℚ)/10 ≤ m.importance)) ++
        mems.filter (fun m => decide (now - 7 ≤ m.timestamp))) = some e2 := by
    unfold lastWith
    cases hgl : ((mems.filter (fun m => decide ((8:ℚ)/10 ≤ m.importance)) ++
        mems.filter (fun m => decide (now - 7 ≤ m.timestamp))).filter
        (fun m => m.content == e.content)).getLast? with
    | some x => exact ⟨x, rfl⟩
    | none =>
      rw [List.getLast?_eq_none_iff] at hgl
      have hemem : e ∈ (mems.filter (fun m => decide ((8:ℚ)/10 ≤ m.importance)) ++
          mems.filter (fun m => decide (now - 7 ≤ m.timestamp))).filter
          (fun m => m.content == e.content) :=
        List.mem_filter.mpr ⟨heL, by simp⟩
      rw [hgl] at hemem
      cases hemem
  obtain ⟨e2, he2⟩ := hlw
  have hmem2 := lastWith_mem e.content _ e2 he2
  refine ⟨e2, ?_, hmem2.2⟩
  unfold keptMemories dedupByContent
  rw [List.mem_filterMap]
  exact ⟨e.content, hkey, he2⟩

/-- Witness for C1's amended statement: a two-entry store (one stale
low-importance entry, one fresh importance-0.9 entry) over capacity 1,
whose kept set fits. -/
theorem C1_cleanup_amended_witness :
    (1 < ([⟨"old", "conversation", -100, 1/2, [], 0, -100⟩,
        bigEntry 1] : List MemoryEntry).length ∧
      (keptMemories 0 [⟨"old", "conversation", -100, 1/2, [], 0, -100⟩,
        bigEntry 1]).length ≤ 1) ∧
    (cleanupMemories 0 1 [⟨"old", "conversation", -100, 1/2, [], 0, -100⟩,
      bigEntry 1]).length ≤ 1 ∧
    ∀ e ∈ ([⟨"old", "conversation", -100, 1/2, [], 0, -100⟩,
        bigEntry 1] : List MemoryEntry), (8:ℚ)/10 ≤ e.importance →
      ∃ e2 ∈ cleanupMemories 0 1 [⟨"old", "conversation", -100, 1/2, [], 0, -100⟩,
        bigEntry 1], e2.content = e.content := by
  have hfi : ([⟨"old", "conversation", -100, 1/2, [], 0, -100⟩,
      bigEntry 1] : List MemoryEntry).filter
        (fun m => decide ((8:ℚ)/10 ≤ m.importance)) = [bigEntry 1] := by
    rw [List.filter_cons, if_neg (by simp only [decide_eq_true_eq]; norm_num),
      List.filter_cons, if_pos (by simp only [bigEntry, decide_eq_true_eq]; norm_num),
      List.filter_nil]
  have hfr : ([⟨"old", "conversation", -100, 1/2, [], 0, -100⟩,
      bigEntry 1] : List MemoryEntry).filter
        (fun m => decide ((0:ℚ) - 7 ≤ m.timestamp)) = [bigEntry 1] := by
    rw [List.filter_cons, if_neg (by simp only [decide_eq_true_eq]; norm_num),
      List.filter_cons, if_pos (by simp only [bigEntry, decide_eq_true_eq]; norm_num),
      List.filter_nil]
  have hkept : keptMemories 0 [⟨"old", "conversation", -100, 1/2, [], 0, -100⟩,
      bigEntry 1] = [bigEntry 1] := by
    unfold keptMemories
    rw [hfi, hfr]
    exact dedupByContent_append_self [bigEntry 1] (by simp)
  have hfit : (keptMemories 0 [⟨"old", "conversation", -100, 1/2, [], 0, -100⟩,
      bigEntry 1]).length ≤ 1 := by
    rw [hkept]
    norm_num
  exact ⟨⟨by norm_num, hfit⟩,
    C1_cleanup_amended 0 1 _ (by norm_num) hfit⟩

end Spectra
